import Mathlib

/-!
Verification development for the `07_cstack` graphics-script interpreter.

The visible source is `src/main.rs` and `src/parser.rs`.  The core modules
(`matrix.rs`, `image.rs`, `color.rs`, `draw.rs`) are not part of the visible
source, so their operations are modelled symbolically from the specification:
the two point stores hold symbolic geometry blocks, the accumulated transform
is the list of elementary transforms composed so far (spec section 4.2's
ordering contract makes the composite equivalent to this list applied in
script order), and every call into the rasterizer / process spawner is
recorded as an event in an effect trace.

The interpreter loop of `parse_file` (parser.rs lines 89-277) is embedded as
the function `run` below, command by command, preserving the source's control
flow: which lines are consumed, which vector indexings can go out of bounds,
which `unwrap`/`panic!` sites can fire, and which state mutations happen
before each possible panic.
-/

namespace CStack

/-- Curve kinds, from `matrix::CurveType` as used in parser.rs (`hermite` and
`bezier` arms). -/
inductive CurveType where
  | hermite
  | bezier
deriving DecidableEq, Repr

/-- Exact decimal scalar: `⟨m, e⟩` denotes the rational value m / 10 ^ e.
The scripts' numeric tokens are plain decimals, and the embedding never
performs arithmetic on scalars (transform composition and tessellation are
kept symbolic), so the exact decimal value of each parsed token is the full
scalar semantics needed.  Values are kept in the canonical form produced by
`normDec`, so propositional equality of `Dec` values is value equality. -/
structure Dec where
  mant : ℤ
  exp : ℕ
deriving DecidableEq, Repr

/-- Canonicalizes a decimal: strips factors of 10 shared by the mantissa and
the power-of-ten denominator, so that equal values get equal representations
(for a nonzero result the mantissa is not divisible by 10 unless the exponent
is 0; zero always becomes `⟨0, 0⟩`). -/
def normDec : ℤ → ℕ → Dec
  | m, 0 => ⟨m, 0⟩
  | m, e + 1 => if m % 10 = 0 then normDec (m / 10) e else ⟨m, e + 1⟩

/-- Integer-valued decimal scalar. -/
def Dec.ofInt (n : ℤ) : Dec := ⟨n, 0⟩

instance : OfNat Dec n := ⟨⟨n, 0⟩⟩

/-- Modelled from the spec: an elementary affine transform (spec section 4.2's
factories `makeScale`, `makeTranslate`, `makeRotateX/Y/Z`).  The source's
`matrix.rs` is not visible; the translation components are integers because
parser.rs line 115 parses the `translate`/`move` arguments into a `Vec` of
integers, and the other factories receive the parsed `f32` values, modelled
exactly as rationals. -/
inductive Elem where
  | scale (sx sy sz : Dec)
  | translate (tx ty tz : ℤ)
  | rotX (theta : Dec)
  | rotY (theta : Dec)
  | rotZ (theta : Dec)
deriving DecidableEq, Repr

/-- Modelled from the spec: the contents appended to a point store by one
parser command.  `matrix.rs` is not visible, so each append operation
(`add_edge`, `add_circle`, `add_curve`, `add_box`, `add_sphere`, `add_torus`)
is recorded symbolically with the exact arguments the parser passes, and
`multiply_matrixes` on a store (spec: `applyTransform`, replacing every point
p with transform·p) wraps each block in `transformed`. -/
inductive Geo where
  | edge (x0 y0 z0 x1 y1 z1 : Dec)
  | circle (cx cy cz r : Dec) (steps : Nat)
  | curve (x0 y0 x1 y1 p4 p5 p6 p7 : Dec) (steps : Nat) (k : CurveType)
  | box (x y z w h d : Dec)
  | sphere (cx cy cz r : Dec) (steps : Nat)
  | torus (cx cy cz r1 r2 : Dec) (steps : Nat)
  | transformed (t : List Elem) (g : Geo)
deriving DecidableEq, Repr

/-- Effect events: one event per call the parser makes into the rasterizer
(`Image`), the tessellators, or the operating system.  `flushWait` is the
event that a write-barrier / child-wait between `create_file` and the spawned
format conversion would emit; parser.rs lines 169-185 never perform such an
operation, so `run` never emits it. -/
inductive Ev where
  | applyPoints
  | applyPolygons
  | clearScreen
  | drawLines
  | drawPolygons
  | display
  | serialize (fname : String)
  | spawnConvert (fname : String)
  | flushWait
  | tessCircle (steps : Nat)
  | tessHermite (steps : Nat)
  | tessBezier (steps : Nat)
  | tessBox
  | tessSphere (steps : Nat)
  | tessTorus (steps : Nat)
deriving DecidableEq, Repr

/-- Interpreter loop state: the edge-mode store `points`, the polygon-mode
store `polygons`, the accumulated `transform`, and the trace of effect calls
made so far (standing in for the canvas and the external world). -/
structure PState where
  points : List Geo
  polygons : List Geo
  transform : List Elem
  trace : List Ev
deriving DecidableEq, Repr

/-- Panic sites of the parser loop: `lineOOB` is the `doc_lines[i]` indexing
panic when a command's argument line is missing (index recorded); `paramOOB`
is the `params[k]` indexing panic on a too-short argument line (the length of
the parsed vector, which is the first out-of-bounds index reached); `parseFail`
is the `.parse().unwrap()` panic with the offending token; `invalidAxis` is
the explicit `panic!` of the `rotate` arm (parser.rs line 144) with the
offending axis token; `unknownCommand` is the explicit `panic!` of the
catch-all arm (parser.rs line 273) with the offending line and its 1-based
line number. -/
inductive PErr where
  | lineOOB (idx : Nat)
  | paramOOB (idx : Nat)
  | parseFail (tok : String)
  | invalidAxis (tok : String)
  | unknownCommand (line : String) (lineNo : Nat)
deriving DecidableEq, Repr

/-- Closed command alphabet of the parser's `match` (parser.rs lines 90-274),
plus `comment` for the `_ if doc_lines[i].starts_with('#')` guard arm and
`unknown` for the final catch-all arm. -/
inductive Cmd where
  | line
  | ident
  | scale
  | translate
  | rotate
  | apply
  | display
  | save
  | quit
  | circle
  | hermite
  | bezier
  | clear
  | box
  | sphere
  | torus
  | comment
  | unknown
deriving DecidableEq, Repr

/-- True when the first character of the line is `#`, modelling Rust's
`doc_lines[i].starts_with('#')` (parser.rs line 238). -/
def startsHash (l : String) : Bool :=
  match l.data with
  | [] => false
  | c :: _ => c = '#'

/-- Keyword dispatch of the parser's `match` statement.  In the source the
`starts_with('#')` guard arm sits between the `bezier` and `clear` arms, but
none of the later literal arms (`clear`, `box`, `sphere`, `torus`) starts
with `#`, so checking the comment guard after all literals is equivalent. -/
def classify (l : String) : Cmd :=
  if l = "line" then .line
  else if l = "ident" then .ident
  else if l = "scale" then .scale
  else if l = "translate" then .translate
  else if l = "move" then .translate
  else if l = "rotate" then .rotate
  else if l = "apply" then .apply
  else if l = "display" then .display
  else if l = "save" then .save
  else if l = "quit" then .quit
  else if l = "circle" then .circle
  else if l = "hermite" then .hermite
  else if l = "bezier" then .bezier
  else if l = "clear" then .clear
  else if l = "box" then .box
  else if l = "sphere" then .sphere
  else if l = "torus" then .torus
  else if startsHash l then .comment
  else .unknown

/-- Commands that consume the following line as their argument line (every
arm of the source's `match` that begins with `i += 1`). -/
def needsArg : Cmd → Bool
  | .line => true
  | .scale => true
  | .translate => true
  | .rotate => true
  | .save => true
  | .circle => true
  | .hermite => true
  | .bezier => true
  | .box => true
  | .sphere => true
  | .torus => true
  | _ => false

/-- Splits a character list at every space, keeping empty fragments,
modelling Rust's `str::split(' ')` (which yields one empty token on the
empty string, and empty tokens between consecutive spaces). -/
def splitSp : List Char → List (List Char)
  | [] => [[]]
  | c :: cs =>
    let r := splitSp cs
    if c = ' ' then [] :: r
    else
      match r with
      | t :: ts => (c :: t) :: ts
      | [] => [[c]]

/-- Tokenizes an argument line, modelling `doc_lines[i].split(' ')`. -/
def tokenize (s : String) : List String :=
  (splitSp s.data).map String.mk

/-- Numeric value of a digit list, most significant first. -/
def digitsToNat (cs : List Char) : Nat :=
  cs.foldl (fun n c => 10 * n + (c.toNat - 48)) 0

/-- True when every character is a decimal digit. -/
def allDigits (cs : List Char) : Bool :=
  cs.all Char.isDigit

/-- Modelled semantics of Rust's `str::parse::<i32>()`: an optional sign
followed by at least one digit (overflow is not modelled; every script value
in scope is small).  A token containing a decimal point is rejected. -/
def parseInt (s : String) : Option ℤ :=
  let p : ℤ × List Char :=
    match s.data with
    | '+' :: r => (1, r)
    | '-' :: r => (-1, r)
    | r => (1, r)
  if p.2 ≠ [] ∧ allDigits p.2 then some (p.1 * digitsToNat p.2) else none

/-- Modelled semantics of Rust's `str::parse::<f32>()` on the plain decimal
tokens the scripts use: an optional sign, an integer part and an optional
fractional part, with at least one digit overall, valued exactly as the
decimal it spells (the exponent / `inf` / `nan` forms of the full float
grammar are outside the scripts' alphabet and are not modelled). -/
def parseDec (s : String) : Option Dec :=
  let p : Bool × List Char :=
    match s.data with
    | '+' :: r => (false, r)
    | '-' :: r => (true, r)
    | r => (false, r)
  match p.2.span (fun c => c ≠ '.') with
  | (ip, []) =>
    if ip ≠ [] ∧ allDigits ip then
      some (Dec.ofInt (if p.1 then -(digitsToNat ip : ℤ) else (digitsToNat ip : ℤ)))
    else none
  | (ip, _ :: fp) =>
    if fp.contains '.' then none
    else if (ip ≠ [] ∨ fp ≠ []) ∧ allDigits ip ∧ allDigits fp then
      some (normDec
        (if p.1 then -(digitsToNat (ip ++ fp) : ℤ) else (digitsToNat (ip ++ fp) : ℤ))
        fp.length)
    else none

/-- Parses every token of an argument line in order, stopping at the first
token that fails, exactly as the source's `for input in ... { params.push(
input.parse().unwrap()) }` loop panics at the first bad token. -/
def parseDecs : List String → Except String (List Dec)
  | [] => .ok []
  | t :: ts =>
    match parseDec t with
    | none => .error t
    | some q =>
      match parseDecs ts with
      | .error t' => .error t'
      | .ok qs => .ok (q :: qs)

/-- Integer variant of `parseRats`, for the `translate`/`move` arm whose
`params` vector is built with `vec![0; 0]` and therefore parses integers. -/
def parseInts : List String → Except String (List ℤ)
  | [] => .ok []
  | t :: ts =>
    match parseInt t with
    | none => .error t
    | some q =>
      match parseInts ts with
      | .error t' => .error t'
      | .ok qs => .ok (q :: qs)

/-- Effect of the `apply` command (parser.rs lines 151-158): each store gets
the accumulated transform applied to it only when its length is positive, in
source order (edge store first, then polygon store). -/
def applyStep (s : PState) : PState :=
  let s1 :=
    if s.points.length > 0 then
      { s with points := s.points.map (Geo.transformed s.transform),
               trace := s.trace ++ [Ev.applyPoints] }
    else s
  if s1.polygons.length > 0 then
    { s1 with polygons := s1.polygons.map (Geo.transformed s1.transform),
              trace := s1.trace ++ [Ev.applyPolygons] }
  else s1

/-- Screen calls shared by `display` and `save` (parser.rs lines 159-166 and
170-176): clear the screen, then draw each store only when non-empty. -/
def drawStep (s : PState) : PState :=
  let t1 := s.trace ++ [Ev.clearScreen]
  let t2 := if s.points.length > 0 then t1 ++ [Ev.drawLines] else t1
  let t3 := if s.polygons.length > 0 then t2 ++ [Ev.drawPolygons] else t2
  { s with trace := t3 }

/-- Effect of the `display` command: the screen calls, then `screen.display()`. -/
def displayStep (s : PState) : PState :=
  let s1 := drawStep s
  { s1 with trace := s1.trace ++ [Ev.display] }

/-- State mutations a command performs before it fetches its argument line.
Only `save` mutates first: its screen clear and draws happen before `i += 1`
indexes the (possibly missing) file-name line. -/
def preStep (c : Cmd) (s : PState) : PState :=
  match c with
  | .save => drawStep s
  | _ => s

/-- Effect of the no-argument commands (parser.rs arms `ident`, `apply`,
`display`, `clear`; `comment` is the guard arm's empty body). -/
def pureStep (c : Cmd) (s : PState) : PState :=
  match c with
  | .ident => { s with transform := [] }
  | .apply => applyStep s
  | .display => displayStep s
  | .clear => { s with points := [], polygons := [] }
  | _ => s

/-- Effect of a command that consumed the argument line `args`, mirroring
the corresponding source arm: tokenize, parse every token (panicking at the
first bad one), index the needed parameters (panicking at `params.len()` if
too few), then perform the store/transform/screen mutation.  Extra tokens
beyond the needed arity are parsed and ignored, as in the source. -/
def argStep (c : Cmd) (args : String) (s : PState) : Except PErr PState :=
  match c with
  | .line =>
    match parseDecs (tokenize args) with
    | .error t => .error (.parseFail t)
    | .ok ps =>
      match ps with
      | x0 :: y0 :: z0 :: x1 :: y1 :: z1 :: _ =>
        .ok { s with points := s.points ++ [Geo.edge x0 y0 z0 x1 y1 z1] }
      | _ => .error (.paramOOB ps.length)
  | .scale =>
    match parseDecs (tokenize args) with
    | .error t => .error (.parseFail t)
    | .ok ps =>
      match ps with
      | sx :: sy :: sz :: _ =>
        .ok { s with transform := s.transform ++ [Elem.scale sx sy sz] }
      | _ => .error (.paramOOB ps.length)
  | .translate =>
    match parseInts (tokenize args) with
    | .error t => .error (.parseFail t)
    | .ok ps =>
      match ps with
      | tx :: ty :: tz :: _ =>
        .ok { s with transform := s.transform ++ [Elem.translate tx ty tz] }
      | _ => .error (.paramOOB ps.length)
  | .rotate =>
    match tokenize args with
    | [] => .error (.paramOOB 0)
    | a :: ts =>
      if a = "x" then
        match ts with
        | [] => .error (.paramOOB 1)
        | t :: _ =>
          match parseDec t with
          | none => .error (.parseFail t)
          | some th => .ok { s with transform := s.transform ++ [Elem.rotX th] }
      else if a = "y" then
        match ts with
        | [] => .error (.paramOOB 1)
        | t :: _ =>
          match parseDec t with
          | none => .error (.parseFail t)
          | some th => .ok { s with transform := s.transform ++ [Elem.rotY th] }
      else if a = "z" then
        match ts with
        | [] => .error (.paramOOB 1)
        | t :: _ =>
          match parseDec t with
          | none => .error (.parseFail t)
          | some th => .ok { s with transform := s.transform ++ [Elem.rotZ th] }
      else .error (.invalidAxis a)
  | .save =>
    .ok { s with trace := s.trace ++ [Ev.serialize args, Ev.spawnConvert args] }
  | .circle =>
    match parseDecs (tokenize args) with
    | .error t => .error (.parseFail t)
    | .ok ps =>
      match ps with
      | cx :: cy :: cz :: r :: _ =>
        .ok { s with points := s.points ++ [Geo.circle cx cy cz r 100],
                     trace := s.trace ++ [Ev.tessCircle 100] }
      | _ => .error (.paramOOB ps.length)
  | .hermite =>
    match parseDecs (tokenize args) with
    | .error t => .error (.parseFail t)
    | .ok ps =>
      match ps with
      | p0 :: p1 :: p2 :: p3 :: p4 :: p5 :: p6 :: p7 :: _ =>
        .ok { s with
              points := s.points ++ [Geo.curve p0 p1 p2 p3 p4 p5 p6 p7 100 .hermite],
              trace := s.trace ++ [Ev.tessHermite 100] }
      | _ => .error (.paramOOB ps.length)
  | .bezier =>
    match parseDecs (tokenize args) with
    | .error t => .error (.parseFail t)
    | .ok ps =>
      match ps with
      | p0 :: p1 :: p2 :: p3 :: p4 :: p5 :: p6 :: p7 :: _ =>
        .ok { s with
              points := s.points ++ [Geo.curve p0 p1 p2 p3 p4 p5 p6 p7 100 .bezier],
              trace := s.trace ++ [Ev.tessBezier 100] }
      | _ => .error (.paramOOB ps.length)
  | .box =>
    match parseDecs (tokenize args) with
    | .error t => .error (.parseFail t)
    | .ok ps =>
      match ps with
      | x :: y :: z :: w :: h :: d :: _ =>
        .ok { s with polygons := s.polygons ++ [Geo.box x y z w h d],
                     trace := s.trace ++ [Ev.tessBox] }
      | _ => .error (.paramOOB ps.length)
  | .sphere =>
    match parseDecs (tokenize args) with
    | .error t => .error (.parseFail t)
    | .ok ps =>
      match ps with
      | x :: y :: z :: r :: _ =>
        .ok { s with polygons := s.polygons ++ [Geo.sphere x y z r 20],
                     trace := s.trace ++ [Ev.tessSphere 20] }
      | _ => .error (.paramOOB ps.length)
  | .torus =>
    match parseDecs (tokenize args) with
    | .error t => .error (.parseFail t)
    | .ok ps =>
      match ps with
      | x :: y :: z :: r1 :: r2 :: _ =>
        .ok { s with polygons := s.polygons ++ [Geo.torus x y z r1 r2 20],
                     trace := s.trace ++ [Ev.tessTorus 20] }
      | _ => .error (.paramOOB ps.length)
  | _ => .ok s

/-- The interpreter loop of `parse_file` (parser.rs lines 89-277) over the
remaining lines, with `i` the 0-based index of the current line in the whole
script (used only for diagnostics, as the source uses it).  The result pairs
the state at termination with `none` on normal completion and `some e` when
the source would panic with the corresponding diagnostic. -/
def run : List String → Nat → PState → PState × Option PErr
  | [], _, s => (s, none)
  | l :: rest, i, s =>
    let c := classify l
    if needsArg c then
      let s0 := preStep c s
      match rest with
      | [] => (s0, some (.lineOOB (i + 1)))
      | args :: rest' =>
        match argStep c args s0 with
        | .error e => (s0, some e)
        | .ok s' => run rest' (i + 2) s'
    else if c = Cmd.quit then (s, none)
    else if c = Cmd.unknown then (s, some (.unknownCommand l (i + 1)))
    else run rest (i + 1) (pureStep c s)

/-- Initial interpreter state built by `main.rs` lines 15-19: empty edge and
polygon stores.  Modelled from the spec: `Matrix::new(4, 4)` for the initial
transform is modelled as the identity (the empty composition), per spec
section 3 ("Identity is the default/reset state"). -/
def initState : PState :=
  { points := [], polygons := [], transform := [], trace := [] }

/-- Failure of `File::open(&fname)?` at parser.rs line 80. -/
inductive IOError where
  | missingFile
deriving DecidableEq, Repr

/-- Embedding of `parse_file` (parser.rs lines 72-279): the script file is
given as `none` when the path is unreadable, in which case the `?` operator
returns the error to the caller before any line is processed; otherwise the
loop runs over the file's lines from index 0. -/
def parse_file (contents : Option (List String)) (s : PState) :
    Except IOError (PState × Option PErr) :=
  match contents with
  | none => .error .missingFile
  | some ls => .ok (run ls 0 s)

/-- Observable outcome of one process run: the exit code and the diagnostics
surfaced on termination. -/
structure MainResult where
  exitCode : Nat
  diagnostics : List PErr
deriving DecidableEq, Repr

/-- Embedding of `main` (main.rs lines 13-39) applied to the contents of the
selected script file: `main` calls `parse_file` and discards the returned
`io::Result`, so an `Err` from an unreadable script path produces a normal,
silent exit (status 0, no diagnostic); a panic inside the loop aborts the
process, and the Rust runtime prints the panic message and exits with
status 101. -/
def mainRun (contents : Option (List String)) : MainResult :=
  match parse_file contents initState with
  | .error _ => { exitCode := 0, diagnostics := [] }
  | .ok (_, some e) => { exitCode := 101, diagnostics := [e] }
  | .ok (_, none) => { exitCode := 0, diagnostics := [] }

/-- The 17 keywords of the parser's command table (spec section 6). -/
def cmdKeywords : List String :=
  ["line", "ident", "scale", "translate", "move", "rotate", "apply",
   "display", "save", "quit", "circle", "hermite", "bezier", "clear",
   "box", "sphere", "torus"]

/-- The keywords whose arm consumes an argument line. -/
def argKeywords : List String :=
  ["line", "scale", "translate", "move", "rotate", "save", "circle",
   "hermite", "bezier", "box", "sphere", "torus"]

/-- Fixed-resolution table of spec section 6: every tessellator invocation
event must carry the table's step count (100 for circle/hermite/bezier, 20
for sphere/torus); non-tessellation events are unconstrained. -/
def stepsOK : Ev → Bool
  | .tessCircle n => n = 100
  | .tessHermite n => n = 100
  | .tessBezier n => n = 100
  | .tessSphere n => n = 20
  | .tessTorus n => n = 20
  | _ => true

/-- A line list is command-aligned when scanning it from its head lands every
argument line inside the list (no command at its end is missing its argument
line) and no command position holds `quit`.  This is the shape of "a whole
number of non-quit commands", under which `run` consumes the list completely
before touching anything appended after it. -/
def aligned : List String → Bool
  | [] => true
  | l :: rest =>
    let c := classify l
    if c = Cmd.quit then false
    else if needsArg c then
      match rest with
      | [] => false
      | _ :: rest' => aligned rest'
    else aligned rest

end CStack

namespace CStack

/-- Stepping equation: a command that needs an argument line, with that line
present, runs its `argStep` and either stops at the panic or continues two
lines further. -/
theorem run_cons_arg (l args : String) (rest : List String) (i : Nat) (s : PState)
    (ha : needsArg (classify l) = true) :
    run (l :: args :: rest) i s =
      match argStep (classify l) args (preStep (classify l) s) with
      | .error e => (preStep (classify l) s, some e)
      | .ok s' => run rest (i + 2) s' := by
  simp only [run]
  rw [if_pos ha]

/-- Stepping equation: a command that needs an argument line but is the last
line of the script panics indexing past the end of the line buffer, after its
pre-argument mutations. -/
theorem run_cons_missing_args (l : String) (i : Nat) (s : PState)
    (ha : needsArg (classify l) = true) :
    run [l] i s = (preStep (classify l) s, some (.lineOOB (i + 1))) := by
  simp only [run]
  rw [if_pos ha]

/-- Stepping equation: a no-argument command other than `quit` and other than
the catch-all panic performs its state mutation and continues on the next
line. -/
theorem run_cons_pure (l : String) (rest : List String) (i : Nat) (s : PState)
    (ha : needsArg (classify l) = false) (hq : classify l ≠ Cmd.quit)
    (hu : classify l ≠ Cmd.unknown) :
    run (l :: rest) i s = run rest (i + 1) (pureStep (classify l) s) := by
  simp only [run]
  rw [if_neg (by simp [ha]), if_neg hq, if_neg hu]

/-- Stepping equation: `quit` stops the loop with the state unchanged. -/
theorem run_cons_quit (l : String) (rest : List String) (i : Nat) (s : PState)
    (hq : classify l = Cmd.quit) :
    run (l :: rest) i s = (s, none) := by
  simp only [run]
  rw [if_neg (by simp [hq, needsArg]), if_pos hq]

/-- Stepping equation: a keyword outside the table (not a comment) panics
with the offending line and its line number, with the state unchanged. -/
theorem run_cons_unknown (l : String) (rest : List String) (i : Nat) (s : PState)
    (hu : classify l = Cmd.unknown) :
    run (l :: rest) i s = (s, some (.unknownCommand l (i + 1))) := by
  simp only [run]
  rw [if_neg (by simp [hu, needsArg]), if_neg (by simp [hu]), if_pos hu]

end CStack

namespace CStack

/-- Composition of the interpreter loop over concatenation: a command-aligned
prefix (see `aligned`) is consumed completely before anything appended after
it, and a panic inside the prefix is unaffected by what follows. -/
theorem run_append : ∀ (n : Nat) (pre : List String), pre.length ≤ n →
    aligned pre = true → ∀ (t : List String) (i : Nat) (s : PState),
    run (pre ++ t) i s =
      (match run pre i s with
       | (s', none) => run t (i + pre.length) s'
       | (s', some e) => (s', some e)) := by
  intro n
  induction n with
  | zero =>
    intro pre hlen _ t i s
    have hpre : pre = [] := List.eq_nil_of_length_eq_zero (Nat.le_zero.mp hlen)
    subst hpre
    simp [run]
  | succ n ih =>
    intro pre hlen halign t i s
    match pre with
    | [] => simp [run]
    | l :: rest =>
      rw [aligned.eq_def] at halign
      simp only [] at halign
      by_cases hq : classify l = Cmd.quit
      · rw [if_pos hq] at halign
        exact absurd halign (by simp)
      rw [if_neg hq] at halign
      by_cases ha : needsArg (classify l) = true
      · rw [if_pos ha] at halign
        match rest with
        | [] => exact absurd halign (by simp)
        | args :: rest' =>
          have hlen' : rest'.length ≤ n := by
            simp [List.length_cons] at hlen
            omega
          rw [List.cons_append, List.cons_append]
          rw [run_cons_arg l args (rest' ++ t) i s ha, run_cons_arg l args rest' i s ha]
          cases hstep : argStep (classify l) args (preStep (classify l) s) with
          | error e => simp
          | ok s' =>
            simp only []
            rw [ih rest' hlen' halign t (i + 2) s']
            have hidx : i + 2 + rest'.length = i + (l :: args :: rest').length := by
              simp [List.length_cons]
              omega
            rw [hidx]
      · rw [if_neg ha] at halign
        have ha' : needsArg (classify l) = false := by
          cases h : needsArg (classify l)
          · rfl
          · exact absurd h ha
        by_cases hu : classify l = Cmd.unknown
        · rw [List.cons_append, run_cons_unknown l (rest ++ t) i s hu,
              run_cons_unknown l rest i s hu]
        · have hlen' : rest.length ≤ n := by
            simp [List.length_cons] at hlen
            omega
          rw [List.cons_append, run_cons_pure l (rest ++ t) i s ha' hq hu,
              run_cons_pure l rest i s ha' hq hu]
          rw [ih rest hlen' halign t (i + 1) (pureStep (classify l) s)]
          have hidx : i + 1 + rest.length = i + (l :: rest).length := by
            simp [List.length_cons]
            omega
          rw [hidx]

end CStack

namespace CStack

/-- Screen-draw calls emit no tessellation events, so they preserve the
fixed-resolution trace invariant. -/
theorem drawStep_stepsOK (s : PState) (h : s.trace.all stepsOK = true) :
    (drawStep s).trace.all stepsOK = true := by
  unfold drawStep
  split_ifs <;> simp [List.all_append, h, stepsOK]

/-- The apply command emits only applyTransform events, preserving the
fixed-resolution trace invariant. -/
theorem applyStep_stepsOK (s : PState) (h : s.trace.all stepsOK = true) :
    (applyStep s).trace.all stepsOK = true := by
  unfold applyStep
  by_cases hp : s.points.length > 0 <;> by_cases hq : s.polygons.length > 0 <;>
    simp [hp, hq, List.all_append, stepsOK, h]

/-- Pre-argument mutations preserve the fixed-resolution trace invariant. -/
theorem preStep_stepsOK (c : Cmd) (s : PState) (h : s.trace.all stepsOK = true) :
    (preStep c s).trace.all stepsOK = true := by
  cases c <;> first
    | exact h
    | exact drawStep_stepsOK s h

/-- No-argument commands preserve the fixed-resolution trace invariant. -/
theorem pureStep_stepsOK (c : Cmd) (s : PState) (h : s.trace.all stepsOK = true) :
    (pureStep c s).trace.all stepsOK = true := by
  cases c <;> first
    | exact h
    | exact applyStep_stepsOK s h
    | (unfold pureStep displayStep
       have hd := drawStep_stepsOK s h
       simp [List.all_append, hd, stepsOK])

/-- Every successful argument-consuming command appends to the trace only
events whose step counts match the fixed-resolution table (100 for
circle/hermite/bezier, 20 for sphere/torus). -/
theorem argStep_stepsOK (c : Cmd) (args : String) (s s' : PState)
    (h : s.trace.all stepsOK = true) (hs : argStep c args s = .ok s') :
    s'.trace.all stepsOK = true := by
  cases c <;> simp only [argStep] at hs <;> (repeat' split at hs) <;>
    first
      | (simp only [Except.ok.injEq] at hs; subst hs;
         simpa [List.all_append, stepsOK] using h)
      | simp at hs

/-- The fixed-resolution trace invariant is preserved by the whole loop. -/
theorem run_stepsOK : ∀ (n : Nat) (lines : List String), lines.length ≤ n →
    ∀ (i : Nat) (s : PState), s.trace.all stepsOK = true →
    ((run lines i s).1.trace).all stepsOK = true := by
  intro n
  induction n with
  | zero =>
    intro lines hlen i s hinv
    have : lines = [] := List.eq_nil_of_length_eq_zero (Nat.le_zero.mp hlen)
    subst this
    simpa [run] using hinv
  | succ n ih =>
    intro lines hlen i s hinv
    match lines with
    | [] => simpa [run] using hinv
    | l :: rest =>
      by_cases ha : needsArg (classify l) = true
      · match rest with
        | [] =>
          rw [run_cons_missing_args l i s ha]
          exact preStep_stepsOK _ s hinv
        | args :: rest' =>
          rw [run_cons_arg l args rest' i s ha]
          cases hstep : argStep (classify l) args (preStep (classify l) s) with
          | error e => exact preStep_stepsOK _ s hinv
          | ok s' =>
            have hlen' : rest'.length ≤ n := by
              simp [List.length_cons] at hlen
              omega
            exact ih rest' hlen' (i + 2) s'
              (argStep_stepsOK _ args _ s' (preStep_stepsOK _ s hinv) hstep)
      · have ha' : needsArg (classify l) = false := by
          cases hb : needsArg (classify l)
          · rfl
          · exact absurd hb ha
        by_cases hq : classify l = Cmd.quit
        · rw [run_cons_quit l rest i s hq]
          exact hinv
        · by_cases hu : classify l = Cmd.unknown
          · rw [run_cons_unknown l rest i s hu]
            exact hinv
          · rw [run_cons_pure l rest i s ha' hq hu]
            have hlen' : rest.length ≤ n := by
              simp [List.length_cons] at hlen
              omega
            exact ih rest hlen' (i + 1) _ (pureStep_stepsOK _ s hinv)

end CStack

namespace CStack

/-- C1: For every `save` command the interpreter clears the canvas, draws
the non-empty stores, serializes to the named file, and only then invokes
the external conversion — the call order holds, but the serialize write is
NOT awaited or flushed before the conversion process is spawned: parser.rs
lines 179-184 use fire-and-forget `Command::spawn` immediately after
`create_file`, with no flush, sync, or wait in between (the hazard spec
section 9 flags in the original).  This theorem evaluates a `save` script:
the effect trace is exactly clear, draw, serialize, spawn — consecutive,
with no flush/wait event anywhere. -/
theorem save_serializes_then_spawns_without_flush :
    run ["line", "0 0 0 1 1 1", "save", "pic.ppm"] 0 initState =
      ({ points := [Geo.edge 0 0 0 1 1 1], polygons := [], transform := [],
         trace := [Ev.clearScreen, Ev.drawLines, Ev.serialize "pic.ppm",
                   Ev.spawnConvert "pic.ppm"] }, none) ∧
    Ev.flushWait ∉
      (run ["line", "0 0 0 1 1 1", "save", "pic.ppm"] 0 initState).1.trace := by
  constructor
  · decide
  · decide

/-- C2: For every `apply` command, the accumulated transform is applied to
both the edge-mode store and the polygon-mode store, and the applyTransform
call is skipped for each store that is empty: an empty store is left exactly
as it was (hence empty), and no applyTransform event is emitted for it. -/
theorem apply_transforms_nonempty_stores (rest : List String) (i : Nat) (s : PState) :
    run ("apply" :: rest) i s =
      run rest (i + 1)
        { s with
          points :=
            if s.points.length > 0 then s.points.map (Geo.transformed s.transform)
            else s.points,
          polygons :=
            if s.polygons.length > 0 then s.polygons.map (Geo.transformed s.transform)
            else s.polygons,
          trace :=
            (s.trace ++ if s.points.length > 0 then [Ev.applyPoints] else []) ++
              if s.polygons.length > 0 then [Ev.applyPolygons] else [] } := by
  rw [run_cons_pure "apply" rest i s rfl (by decide) (by decide)]
  show run rest (i + 1) (applyStep s) = _
  congr 1
  unfold applyStep
  by_cases hp : s.points.length > 0 <;> by_cases hq : s.polygons.length > 0 <;>
    simp [hp, hq]

/-- C3 (code bug): When the script file path is unreadable, `parse_file`
does return the `MissingFile` error to its caller (the `?` at parser.rs line
80), but `main` (main.rs lines 21-37) discards the returned `io::Result`, so
the process exits normally with status 0 and surfaces no diagnostic — it
exits silently, contradicting the claim's "surfaces a diagnostic rather than
exiting silently". -/
theorem missing_script_file_exits_silently :
    parse_file none initState = Except.error IOError.missingFile ∧
    mainRun none = { exitCode := 0, diagnostics := [] } :=
  ⟨rfl, rfl⟩

/-- C4: The interpreter invokes the circle, hermite, and bezier tessellators
with 100 steps and the sphere and torus tessellators with 20 steps, for
every occurrence of those commands: every tessellation event the loop ever
appends to the trace carries the fixed step count of the table `stepsOK`,
whatever the script, starting from any state whose trace already satisfies
the table. -/
theorem tess_fixed_resolution (lines : List String) (i : Nat) (s : PState)
    (h : s.trace.all stepsOK = true) :
    ((run lines i s).1.trace).all stepsOK = true :=
  run_stepsOK lines.length lines le_rfl i s h

/-- Witness for C4 at a concrete script exercising all five tessellators. -/
theorem tess_fixed_resolution_witness :
    initState.trace.all stepsOK = true ∧
    ((run ["circle", "0 0 0 5", "hermite", "0 0 1 1 2 2 3 3", "bezier",
           "0 0 1 1 2 2 3 3", "sphere", "1 2 3 4", "torus", "0 0 0 2 5"]
        0 initState).1.trace).all stepsOK = true :=
  ⟨by decide,
   tess_fixed_resolution
     ["circle", "0 0 0 5", "hermite", "0 0 1 1 2 2 3 3", "bezier",
      "0 0 1 1 2 2 3 3", "sphere", "1 2 3 4", "torus", "0 0 0 2 5"]
     0 initState (by decide)⟩

/-- C5: A `rotate` command whose axis token (the first token of its argument
line) is not exactly "x", "y", or "z" stops the run at that point with the
`invalidAxis` diagnostic carrying the offending token, and the final state is
the state before the command — in particular the accumulated transform is
not mutated. -/
theorem rotate_invalid_axis_stops_run (argsLine a : String) (ts : List String)
    (rest : List String) (i : Nat) (s : PState)
    (htok : tokenize argsLine = a :: ts)
    (hx : a ≠ "x") (hy : a ≠ "y") (hz : a ≠ "z") :
    run ("rotate" :: argsLine :: rest) i s = (s, some (PErr.invalidAxis a)) := by
  rw [run_cons_arg "rotate" argsLine rest i s rfl]
  have hcl : classify "rotate" = Cmd.rotate := rfl
  rw [hcl]
  have hstep : argStep Cmd.rotate argsLine (preStep Cmd.rotate s)
      = .error (.invalidAxis a) := by
    simp only [argStep, htok]
    rw [if_neg hx, if_neg hy, if_neg hz]
  rw [hstep]
  rfl

/-- Witness for C5 with the axis token "w". -/
theorem rotate_invalid_axis_stops_run_witness :
    tokenize "w 30" = ["w", "30"] ∧
    run ["rotate", "w 30"] 0 initState = (initState, some (PErr.invalidAxis "w")) :=
  ⟨by decide,
   rotate_invalid_axis_stops_run "w 30" "w" ["30"] [] 0 initState (by decide)
     (by decide) (by decide) (by decide)⟩

/-- C6: A script line whose keyword is not in the command table is ignored
with no effect on any state when it starts with `#`, and otherwise stops the
run with the `unknownCommand` diagnostic carrying the offending line and its
1-based line number. -/
theorem non_table_keyword_comment_or_panic (l : String) (rest : List String)
    (i : Nat) (s : PState) (h : l ∉ cmdKeywords) :
    (startsHash l = true → run (l :: rest) i s = run rest (i + 1) s) ∧
    (startsHash l = false →
      run (l :: rest) i s = (s, some (PErr.unknownCommand l (i + 1)))) := by
  simp only [cmdKeywords, List.mem_cons, List.not_mem_nil, or_false, not_or] at h
  obtain ⟨h1, h2, h3, h4, h5, h6, h7, h8, h9, h10, h11, h12, h13, h14, h15, h16, h17⟩ := h
  have hc : classify l = if startsHash l then Cmd.comment else Cmd.unknown := by
    unfold classify
    rw [if_neg h1, if_neg h2, if_neg h3, if_neg h4, if_neg h5, if_neg h6,
        if_neg h7, if_neg h8, if_neg h9, if_neg h10, if_neg h11, if_neg h12,
        if_neg h13, if_neg h14, if_neg h15, if_neg h16, if_neg h17]
  constructor
  · intro hs
    rw [hs, if_pos rfl] at hc
    rw [run_cons_pure l rest i s (by rw [hc]; rfl) (by rw [hc]; exact fun hcon => by cases hcon)
        (by rw [hc]; exact fun hcon => by cases hcon)]
    rw [hc]
    rfl
  · intro hs
    rw [hs] at hc
    simp only [Bool.false_eq_true, if_false] at hc
    exact run_cons_unknown l rest i s hc

/-- Witness for C6 on both branches: a comment line and an unknown keyword. -/
theorem non_table_keyword_comment_or_panic_witness :
    ("#c" ∉ cmdKeywords ∧ run ["#c", "quit"] 0 initState = run ["quit"] 1 initState) ∧
    ("frob" ∉ cmdKeywords ∧
      run ["frob"] 0 initState = (initState, some (PErr.unknownCommand "frob" 1))) :=
  ⟨⟨by decide,
    (non_table_keyword_comment_or_panic "#c" ["quit"] 0 initState (by decide)).1 (by decide)⟩,
   ⟨by decide,
    (non_table_keyword_comment_or_panic "frob" [] 0 initState (by decide)).2 (by decide)⟩⟩

/-- C7: The `clear` command resets both the edge-mode store and the
polygon-mode store to empty (parser.rs lines 239-242), leaving the transform
and the screen untouched, and the run continues on the next line. -/
theorem clear_resets_both_stores (rest : List String) (i : Nat) (s : PState) :
    run ("clear" :: rest) i s =
      run rest (i + 1) { s with points := [], polygons := [] } := by
  rw [run_cons_pure "clear" rest i s rfl (by decide) (by decide)]
  rfl

/-- C8: A script containing a `quit` command line yields the same final
state as the prefix of the script up to that `quit` line: with `pre` the
commands before the quit line (command-aligned, so the quit line sits at a
command position and is the first quit), everything after the quit line has
no effect on the result. -/
theorem quit_ignores_following_commands (pre rest : List String) (i : Nat)
    (s : PState) (h : aligned pre = true) :
    run (pre ++ "quit" :: rest) i s = run (pre ++ ["quit"]) i s := by
  rw [run_append pre.length pre le_rfl h ("quit" :: rest) i s,
      run_append pre.length pre le_rfl h ["quit"] i s]
  cases hr : run pre i s with
  | mk s' oe =>
    cases oe with
    | none =>
      simp only []
      rw [run_cons_quit "quit" rest (i + pre.length) s' rfl,
          run_cons_quit "quit" [] (i + pre.length) s' rfl]
    | some e => simp

/-- Witness for C8: commands after the quit line are discarded. -/
theorem quit_ignores_following_commands_witness :
    aligned ["ident", "scale", "2 2 2"] = true ∧
    run (["ident", "scale", "2 2 2"] ++ "quit" :: ["line", "0 0 0 9 9 9"]) 0 initState =
      run (["ident", "scale", "2 2 2"] ++ ["quit"]) 0 initState :=
  ⟨by decide,
   quit_ignores_following_commands ["ident", "scale", "2 2 2"]
     ["line", "0 0 0 9 9 9"] 0 initState (by decide)⟩

/-- C9: `translate`/`move` parse their arguments as integers (the `params`
vector at parser.rs line 115 is an integer vector), so the fractional token
"1.5" makes the run terminate with a parse panic and the state unchanged,
while the very same token is accepted by `line` and by `scale`, whose runs
complete normally. -/
theorem translate_rejects_fractional_argument (rest : List String) (i : Nat)
    (s : PState) :
    run ("translate" :: "1.5 0 0" :: rest) i s = (s, some (PErr.parseFail "1.5")) ∧
    run ("move" :: "1.5 0 0" :: rest) i s = (s, some (PErr.parseFail "1.5")) ∧
    (run ["line", "0 0 0 1.5 0 0"] i s).2 = none ∧
    (run ["scale", "1.5 1 1"] i s).2 = none :=
  ⟨rfl, rfl, rfl, rfl⟩

/-- C10: An argument-taking command that is the last line of the script,
with no following line, makes the interpreter index past the end of the
line buffer: the run stops with the out-of-bounds fault at index i+1, not
with a parse diagnostic. -/
theorem trailing_command_indexes_oob (c : String) (i : Nat) (s : PState)
    (h : c ∈ argKeywords) :
    (run [c] i s).2 = some (PErr.lineOOB (i + 1)) := by
  fin_cases h <;> rfl

/-- Witness for C10 with the `line` command alone at the end of a script. -/
theorem trailing_command_indexes_oob_witness :
    "line" ∈ argKeywords ∧ (run ["line"] 0 initState).2 = some (PErr.lineOOB 1) :=
  ⟨by decide, trailing_command_indexes_oob "line" 0 initState (by decide)⟩

end CStack
